import Mathlib

/-!
Verification development for the `video_storage_tool` pipeline
(repository `john-holland/system-drawer`, directory
`src/Scripts/video_storage_tool/`).

Shallow embedding conventions:
* Python floats that only ever enter comparisons, `min`/`max`, `int()`
  truncation and division are modelled as rationals (`ℚ`).
* `subprocess` invocations of ffmpeg/ffprobe are modelled by oracle
  parameters describing their observable outcome (success, caught
  failure, or a raised `TimeoutExpired`), and by the command structure
  the code builds (trim targets, loop counts).
* The filesystem of one stored-item directory is a record of booleans,
  one per conventional artifact file, plus an opaque list of other file
  names that the pipeline never touches.
* Python exceptions are modelled with `Except`; a raised exception
  aborts the remaining steps exactly as in the source.
-/

namespace VideoStorageTool

/-! ## Server: byte-range parsing and the stream endpoint
Embedding of `server.py` `_parse_range` (lines 314-327) and the
header/status/content-length logic of `stream` (lines 389-424).
Headers are modelled as `List Char`. -/

/-- Python `str.strip()` on the ASCII whitespace the model needs
(`server.py` strips the Range header before matching). -/
def pyStrip (l : List Char) : List Char :=
  ((l.dropWhile Char.isWhitespace).reverse.dropWhile Char.isWhitespace).reverse

/-- Case-insensitive match of the literal `bytes=` marker at the head of
the (stripped) header, returning the remainder.  This covers both the
`.lower().startswith("bytes=")` guard and the `bytes=` part of the
`re.I` regex in `_parse_range`. -/
def dropBytesTag (l : List Char) : Option (List Char) :=
  match l with
  | c1 :: c2 :: c3 :: c4 :: c5 :: c6 :: rest =>
    if c1.toLower = 'b' ∧ c2.toLower = 'y' ∧ c3.toLower = 't' ∧
       c4.toLower = 'e' ∧ c5.toLower = 's' ∧ c6 = '=' then some rest else none
  | _ => none

/-- Maximal leading digit run of a character list, with the remainder:
the `\d*` groups of the regex `bytes=(\d*)-(\d*)`. -/
def takeDigits : List Char → List Char × List Char
  | [] => ([], [])
  | c :: rest =>
    if c.isDigit then
      let p := takeDigits rest
      (c :: p.1, p.2)
    else ([], c :: rest)

/-- Python `int` of a non-empty decimal digit string (leading zeros allowed). -/
def digitsToNat (ds : List Char) : ℕ :=
  ds.foldl (fun a c => 10 * a + (c.toNat - 48)) 0

/-- Group extraction of the regex `bytes=(\d*)-(\d*)` under `re.match`
(anchored at the start only; trailing junk is ignored, as in Python). -/
def range_groups (header : List Char) : Option (List Char × List Char) :=
  match dropBytesTag (pyStrip header) with
  | none => none
  | some rest =>
    let p := takeDigits rest
    match p.2 with
    | c :: r2 => if c = '-' then some (p.1, (takeDigits r2).1) else none
    | [] => none

/-- Embedding of `server.py::_parse_range` (lines 314-327): returns the
inclusive `(start, end)` pair, or `none` when the header is absent,
malformed or unsatisfiable.  `start` defaults to 0 and `end` to
`total - 1` when the corresponding group is empty; the result is clipped
to `total - 1`. -/
def parse_range (header : List Char) (total : ℕ) : Option (ℤ × ℤ) :=
  match range_groups header with
  | none => none
  | some g =>
    let start : ℤ := if g.1.isEmpty then 0 else (digitsToNat g.1 : ℤ)
    let e : ℤ := if g.2.isEmpty then (total : ℤ) - 1 else (digitsToNat g.2 : ℤ)
    if start > e ∨ start ≥ (total : ℤ) then none
    else some (start, min e ((total : ℤ) - 1))

/-- Observable part of the HTTP response built by `server.py::stream`. -/
structure StreamResponse where
  status : ℕ
  contentLength : ℤ
  contentRange : Option (ℤ × ℤ × ℕ)
  acceptRanges : Bool
deriving DecidableEq

/-- Embedding of `server.py::stream` (lines 389-424) for a file of
`size` bytes that exists: status/headers as a function of the optional
`Range` header.  An absent, falsy or unparseable header yields a plain
200 response with the full length; a parsed range yields 206 with
`Content-Range`.  `Accept-Ranges: bytes` is always set. -/
def stream (size : ℕ) (range_header : Option (List Char)) : StreamResponse :=
  let parsed : Option (ℤ × ℤ) :=
    match range_header with
    | none => none
    | some h => if h.isEmpty then none else parse_range h size
  match parsed with
  | some se => ⟨206, se.2 - se.1 + 1, some (se.1, se.2, size), true⟩
  | none => ⟨200, (size : ℤ), none, true⟩

/-! ## Audio extractor bitrate
Embedding of the bitrate computation in `audio.py::extract_and_compress_audio`
(lines 43-50). -/

/-- Python `int()` on a rational: truncation toward zero. -/
def pyInt (q : ℚ) : ℤ :=
  if q < 0 then ⌈q⌉ else ⌊q⌋

/-- Embedding of the bitrate (kbps) chosen by
`audio.py::extract_and_compress_audio`: when the probed `duration` is
positive, `int(max_mb * 1e6 * 8 / duration / 1000)` clamped into
`[32, 320]`; otherwise the 128 kbps fallback. -/
def bitrate_k (max_mb duration : ℚ) : ℤ :=
  if 0 < duration then
    max 32 (min 320 (pyInt (max_mb * 1000000 * 8 / duration / 1000)))
  else 128

/-! ## Reconstitution merger
Embedding of `reconstitute.py`: `find_artifacts` (lines 19-47),
`reconstitute` (lines 70-127) and `_merge_ffmpeg` (lines 129-165).
Probed durations are passed as oracle parameters (a failed probe
returns 0.0 in the source). -/

/-- A path recorded in `manifest.json`, together with whether that path
currently exists on disk. -/
structure PathRef where
  onDisk : Bool
deriving DecidableEq

/-- Contents of a `manifest.json` file as read by `find_artifacts`:
each field is `none` when the JSON value is null/absent. -/
structure ManifestFile where
  audio : Option PathRef
  resultant_video : Option PathRef
  diff_video : Option PathRef
deriving DecidableEq

/-- A stored-item directory as observed by `find_artifacts`:
the optional manifest plus the conventional artifact files. -/
structure StoredDir where
  manifest : Option ManifestFile
  audioFile : Bool
  resultantFile : Bool
  diffFile : Bool
deriving DecidableEq

/-- Name-convention fallback of `find_artifacts` (lines 35-47): an
`audio.{aac,mp3}` file, `resultant.mp4`, `diff.ogv`, each `none` when
absent. -/
def find_by_name (d : StoredDir) : Option Unit × Option Unit × Option Unit :=
  (if d.audioFile then some () else none,
   if d.resultantFile then some () else none,
   if d.diffFile then some () else none)

/-- Embedding of `reconstitute.py::find_artifacts`: prefer the
manifest-declared audio/resultant paths when both are recorded and both
exist on disk (resolving the diff from the manifest path if it exists,
else from `diff.ogv`); otherwise fall back to discovery by name. -/
def find_artifacts (d : StoredDir) : Option Unit × Option Unit × Option Unit :=
  match d.manifest with
  | some m =>
    match m.audio, m.resultant_video with
    | some a, some r =>
      if a.onDisk ∧ r.onDisk then
        let dp : Option Unit :=
          match m.diff_video with
          | some dd => if dd.onDisk then some () else (if d.diffFile then some () else none)
          | none => if d.diffFile then some () else none
        (some (), some (), dp)
      else find_by_name d
    | _, _ => find_by_name d
  | none => find_by_name d

/-- The ffmpeg invocation built by `reconstitute.py::_merge_ffmpeg`:
either a plain mux trimmed to the target duration (`-t target`, video
stream-copied), or a loop of the video (`-stream_loop loops`) trimmed to
the target and re-encoded. -/
inductive MergeCmd
  | muxTrim (target : ℚ)
  | loopTrim (loops : ℤ) (target : ℚ)
deriving DecidableEq

/-- Embedding of `reconstitute.py::_merge_ffmpeg` (lines 129-165): when
the probed video duration is non-positive (unknown) or at least the
target (audio) duration, mux and trim to the target; otherwise loop the
video `int(target / video) + 1` times and trim to the target. -/
def merge_ffmpeg (video_duration_sec target_duration_sec : ℚ) : MergeCmd :=
  if video_duration_sec ≤ 0 ∨ target_duration_sec ≤ video_duration_sec then
    .muxTrim target_duration_sec
  else
    .loopTrim (pyInt (target_duration_sec / video_duration_sec) + 1) target_duration_sec

/-- Action performed by a successful `reconstitute` call: either the
diff-applying merge (`apply_diff_ffmpeg`, target = audio duration) or
the plain merge.  A raised error produces no action, hence no output
file is created at the output path. -/
inductive ReconAction
  | applyDiff (target : ℚ)
  | merge (c : MergeCmd)
deriving DecidableEq

/-- Exceptions raised by `reconstitute.py::reconstitute`:
`FileNotFoundError` when audio or resultant cannot be resolved,
`ValueError` when the audio duration cannot be determined. -/
inductive ReconError
  | artifactsMissing
  | audioDurationUnknown
deriving DecidableEq

/-- Embedding of `reconstitute.py::reconstitute` (lines 70-127).
`audio_dur` and `video_dur` are the ffprobe results for the resolved
audio and resultant files (0 on probe failure, as in
`get_media_duration_seconds`).  The out-path is only ever written by the
returned action; both error cases are raised before any write. -/
def reconstitute (d : StoredDir) (use_diff : Bool)
    (audio_dur video_dur : ℚ) : Except ReconError ReconAction :=
  let found := find_artifacts d
  if found.1 = none ∨ found.2.1 = none then .error .artifactsMissing
  else if audio_dur ≤ 0 then .error .audioDurationUnknown
  else if use_diff ∧ found.2.2.isSome then .ok (.applyDiff audio_dur)
  else .ok (.merge (merge_ffmpeg video_dur audio_dur))

/-! ## Diff engine
Embedding of `diff.py::compute_diff` (lines 71-131).  The ffprobe and
ffmpeg invocations are represented by their observable outcomes; the
`except` clauses of the source catch `CalledProcessError`,
`FileNotFoundError` (and for the probe also `JSONDecodeError`,
`ValueError`, `KeyError`) — but never `subprocess.TimeoutExpired`,
which therefore propagates. -/

/-- Outcome of `diff.py::_probe_video` on one input: a parsed
width/height/fps/duration record, a caught failure (returns `None`), or
a raised `subprocess.TimeoutExpired` (not in the `except` tuple). -/
inductive ProbeResult
  | found (width height : ℕ) (fps duration_sec : ℚ)
  | failed
  | timeout
deriving DecidableEq

/-- Outcome of the diff-encoding ffmpeg run: success, a caught
`CalledProcessError`/`FileNotFoundError`, or a raised
`subprocess.TimeoutExpired`. -/
inductive EncodeResult
  | success
  | failCaught
  | timeout
deriving DecidableEq

/-- Outcome of `_log_diff_stats` (purely observational): completion, or
a raised `subprocess.TimeoutExpired` (its `except` tuple also lacks it). -/
inductive StatsResult
  | completed
  | timeout
deriving DecidableEq

/-- The one exception the diff stage can propagate. -/
inductive PyError
  | timeoutExpired
deriving DecidableEq

/-- Embedding of `diff.py::compute_diff`: skipped when disabled or when
either input file is missing; `None` on a caught probe failure,
non-positive aligned duration or fps, caught encode failure, or missing
output; `some` on success.  A `TimeoutExpired` from either probe, the
encode, or the stats pass is NOT caught and propagates. -/
def compute_diff (enabled : Bool) (origExists resExists : Bool)
    (probeOrig probeRes : ProbeResult) (enc : EncodeResult)
    (outExists : Bool) (stats : StatsResult) : Except PyError (Option Unit) :=
  if enabled = false then .ok none
  else if origExists = false ∨ resExists = false then .ok none
  else
    match probeOrig with
    | .timeout => .error .timeoutExpired
    | .failed =>
      match probeRes with
      | .timeout => .error .timeoutExpired
      | _ => .ok none
    | .found _ _ fpsO dO =>
      match probeRes with
      | .timeout => .error .timeoutExpired
      | .failed => .ok none
      | .found _ _ _ dR =>
        if min dO dR ≤ 0 ∨ fpsO ≤ 0 then .ok none
        else
          match enc with
          | .timeout => .error .timeoutExpired
          | .failCaught => .ok none
          | .success =>
            if outExists = false then .ok none
            else
              match stats with
              | .timeout => .error .timeoutExpired
              | .completed => .ok (some ())

/-! ## Store pipeline orchestrator
Embedding of `__main__.py::run_store` (lines 42-126) and
`__main__.py::_write_manifest` (lines 183-200) as a transformer of the
output-directory state.  Each external stage (audio extraction,
transcription, text-to-video) is an oracle that either completes - in
which case, as in the source, its output file exists - or raises. -/

/-- Outcome of one external stage invocation. -/
inductive StageResult
  | ok
  | err
deriving DecidableEq

/-- Contents of the written `manifest.json` that the claims inspect:
`original_video`, `audio` and `script` are always recorded as the paths
held in the local variables; `resultant_video` and `diff_video` are
null unless the corresponding file exists (lines 196-197). -/
structure ManifestData where
  resultantRecorded : Bool
  diffRecorded : Bool
deriving DecidableEq

/-- State of the output directory: one boolean per conventional
artifact file (`input.mp4`/the input video, `audio.{aac,mp3}`,
`script.txt`, `resultant.mp4`, `diff.ogv`), the manifest, and the other
files present in the directory, which the pipeline never touches. -/
structure FS where
  input : Bool
  audio : Bool
  script : Bool
  resultant : Bool
  diffFile : Bool
  manifest : Option ManifestData
  others : List String
deriving DecidableEq

/-- Behaviour of the external collaborators and of the injected progress
callback during one `run_store` invocation. `cbRaises` models a progress
callback that raises when invoked (the source calls `cb` directly,
without any wrapper, at every `run_store` call site). -/
structure Oracles where
  cbRaises : Bool
  audioRes : StageResult
  scriptRes : StageResult
  t2vRes : StageResult
  diffEnabled : Bool
  probeOrig : ProbeResult
  probeRes : ProbeResult
  encodeRes : EncodeResult
  diffOutExists : Bool
  statsRes : StatsResult
deriving DecidableEq

/-- Result of a `run_store` call: whether it completed without an
exception, the final directory state, and whether each cached stage's
work (extraction / transcription / T2V generation) was invoked. -/
structure RunResult where
  ok : Bool
  fs : FS
  invAudio : Bool
  invScript : Bool
  invT2V : Bool
deriving DecidableEq

/-- Embedding of the `force_script` deletions (`__main__.py` lines
66-70): unlink `script.txt` and `resultant.mp4`, each only if present;
nothing else is touched. -/
def force_step (fs : FS) : FS :=
  { fs with script := false, resultant := false }

/-- Step 1 of `run_store` (lines 74-86): if `audio.{aac,mp3}` is absent,
report progress (the unwrapped callback may raise), extract (which may
raise), report done; else report "cached, skipping".  The triple is
(state, work-invoked, exception-raised). -/
def step_audio (o : Oracles) (fs : FS) : FS × Bool × Bool :=
  if fs.audio = false then
    if o.cbRaises then (fs, false, true)
    else
      match o.audioRes with
      | .err => (fs, true, true)
      | .ok =>
        let fs' := { fs with audio := true }
        if o.cbRaises then (fs', true, true) else (fs', true, false)
  else
    if o.cbRaises then (fs, false, true) else (fs, false, false)

/-- Step 2 of `run_store` (lines 88-100): same shape for `script.txt`
via `video_to_script`. -/
def step_script (o : Oracles) (fs : FS) : FS × Bool × Bool :=
  if fs.script = false then
    if o.cbRaises then (fs, false, true)
    else
      match o.scriptRes with
      | .err => (fs, true, true)
      | .ok =>
        let fs' := { fs with script := true }
        if o.cbRaises then (fs', true, true) else (fs', true, false)
  else
    if o.cbRaises then (fs, false, true) else (fs, false, false)

/-- Step 3 of `run_store` (lines 102-115): if `resultant.mp4` is absent,
run `script_to_video` (whose internal callback reports go through the
wrapped `_report` and cannot raise); else report "cached, skipping"
through the unwrapped callback. -/
def step_t2v (o : Oracles) (fs : FS) : FS × Bool × Bool :=
  if fs.resultant = false then
    match o.t2vRes with
    | .err => (fs, true, true)
    | .ok => ({ fs with resultant := true }, true, false)
  else
    if o.cbRaises then (fs, false, true) else (fs, false, false)

/-- Embedding of `__main__.py::_write_manifest` (lines 183-200):
`resultant_video` is recorded iff `resultant.mp4` exists at write time,
`diff_video` iff `compute_diff` returned a path and that path exists. -/
def write_manifest (fs : FS) (diff_path : Option Unit) : FS :=
  { fs with manifest := some ⟨fs.resultant, diff_path.isSome && fs.diffFile⟩ }

/-- Stages of `run_store` after the `force_script` deletions (lines
71-126): audio, script, T2V, then the always-run diff (whose `some`
result implies `diff.ogv` was created), then the manifest write.  Any
raised exception aborts the remaining steps with the state reached so
far and no manifest write. -/
def run_store_stages (o : Oracles) (fs1 : FS) : RunResult :=
  match step_audio o fs1 with
  | (fsA, invA, true) => ⟨false, fsA, invA, false, false⟩
  | (fsA, invA, false) =>
    match step_script o fsA with
    | (fsS, invS, true) => ⟨false, fsS, invA, invS, false⟩
    | (fsS, invS, false) =>
      match step_t2v o fsS with
      | (fsT, invT, true) => ⟨false, fsT, invA, invS, invT⟩
      | (fsT, invT, false) =>
        match compute_diff o.diffEnabled fsT.input fsT.resultant o.probeOrig
            o.probeRes o.encodeRes o.diffOutExists o.statsRes with
        | .error _ => ⟨false, fsT, invA, invS, invT⟩
        | .ok dp =>
          let fsD := { fsT with diffFile := fsT.diffFile || dp.isSome }
          ⟨true, write_manifest fsD dp, invA, invS, invT⟩

/-- Embedding of `__main__.py::run_store` (lines 42-126): the
`force_script` deletions (if requested) followed by the four stages and
the manifest write. -/
def run_store (force_script : Bool) (o : Oracles) (fs0 : FS) : RunResult :=
  run_store_stages o (if force_script then force_step fs0 else fs0)

/-- A directory state in which a present manifest implies that all three
stage outputs (audio, script, resultant video) exist: the spec's manifest
invariant as a predicate on directory states. -/
def goodDir (fs : FS) : Prop :=
  fs.manifest.isSome = true → (fs.audio = true ∧ fs.script = true ∧ fs.resultant = true)

/-! ## Concrete fixtures used by closed theorems -/

/-- A fresh output directory: only the input video is present. -/
def fsEmpty : FS :=
  ⟨true, false, false, false, false, none, []⟩

/-- A directory where all three cached stages already completed but no
manifest has been written yet (e.g. a crash before the manifest write). -/
def fsStaged : FS :=
  ⟨true, true, true, true, false, none, []⟩

/-- Oracles for a run in which every external collaborator succeeds and
the diff encodes cleanly. -/
def oAllOk : Oracles :=
  ⟨false, .ok, .ok, .ok, true, .found 640 480 24 10, .found 1280 720 24 5,
   .success, true, .completed⟩

/-- Oracles identical to `oAllOk` except that the transcription stage
raises. -/
def oScriptErr : Oracles :=
  { oAllOk with scriptRes := .err }

/-- Oracles identical to `oAllOk` except that the progress callback
raises whenever invoked. -/
def oCbRaise : Oracles :=
  { oAllOk with cbRaises := true }

/-- Oracles identical to `oAllOk` except that the diff-encoding ffmpeg
run exceeds its 600-second timeout, raising `subprocess.TimeoutExpired`. -/
def oDiffTimeout : Oracles :=
  { oAllOk with encodeRes := .timeout }

/-- A stored directory with conventional `audio.*` and `resultant.mp4`
files and no manifest. -/
def dirPlain : StoredDir :=
  ⟨none, true, true, false⟩

/-- A stored directory with an audio file but no `resultant.mp4` and no
manifest. -/
def dirNoResultant : StoredDir :=
  ⟨none, true, false, false⟩

deriving instance DecidableEq for Except

/-! ## Helper lemmas: characters, stripping and digit runs -/

lemma isDigit_not_isWhitespace (c : Char) (h : c.isDigit = true) : c.isWhitespace = false := by
  apply Bool.eq_false_iff.mpr
  intro hw
  simp only [Char.isWhitespace, Bool.or_eq_true, decide_eq_true_eq] at hw
  obtain ((rfl | rfl) | rfl) | rfl := hw <;> revert h <;> decide

lemma dropWhile_eq_self_of_forall (p : Char → Bool) (l : List Char)
    (h : ∀ c ∈ l, p c = false) : l.dropWhile p = l := by
  cases l with
  | nil => rfl
  | cons a t => simp [List.dropWhile_cons, h a (by simp)]

lemma pyStrip_eq_self (l : List Char) (h : ∀ c ∈ l, c.isWhitespace = false) :
    pyStrip l = l := by
  unfold pyStrip
  rw [dropWhile_eq_self_of_forall _ _ h,
      dropWhile_eq_self_of_forall _ _ (fun c hc => h c (List.mem_reverse.mp hc)),
      List.reverse_reverse]

lemma takeDigits_all (ds : List Char) (h : ∀ c ∈ ds, c.isDigit = true) :
    takeDigits ds = (ds, []) := by
  induction ds with
  | nil => rfl
  | cons a t ih =>
    simp only [takeDigits, h a (by simp), if_true]
    rw [ih (fun c hc => h c (by simp [hc]))]

lemma dropBytesTag_bytes (rest : List Char) :
    dropBytesTag ('b' :: 'y' :: 't' :: 'e' :: 's' :: '=' :: rest) = some rest := by
  simp only [dropBytesTag]
  rw [if_pos]
  refine ⟨by decide, by decide, by decide, by decide, by decide, ?_⟩
  decide

/-- Any successfully parsed range is within the file: start and end are
clipped to `[0, total - 1]` and ordered. -/
lemma parse_range_clip (hdr : List Char) (total : ℕ) (s e : ℤ)
    (hp : parse_range hdr total = some (s, e)) :
    0 ≤ s ∧ s ≤ e ∧ e ≤ (total : ℤ) - 1 ∧ s < (total : ℤ) := by
  unfold parse_range at hp
  rcases hg : range_groups hdr with _ | g
  · rw [hg] at hp; cases hp
  · rw [hg] at hp
    simp only at hp
    set a : ℤ := if g.1.isEmpty then (0 : ℤ) else (digitsToNat g.1 : ℤ) with ha
    set b : ℤ := if g.2.isEmpty then (total : ℤ) - 1 else (digitsToNat g.2 : ℤ) with hb
    split at hp
    · cases hp
    · rename_i hc
      push_neg at hc
      rw [Option.some.injEq, Prod.mk.injEq] at hp
      obtain ⟨rfl, rfl⟩ := hp
      refine ⟨?_, le_min hc.1 (by omega), min_le_right _ _, hc.2⟩
      rw [ha]
      split
      · exact le_refl 0
      · positivity

/-- Parsing a suffix-form header `bytes=-<digits>` on a non-empty file:
the first bound defaults to 0 and the second is the clipped number. -/
lemma suffix_header_parse (ds : List Char) (S : ℕ) (hS : 0 < S) (hne : ds ≠ [])
    (hdig : ∀ c ∈ ds, c.isDigit = true) :
    parse_range ('b' :: 'y' :: 't' :: 'e' :: 's' :: '=' :: '-' :: ds) S =
      some (0, min (digitsToNat ds : ℤ) ((S : ℤ) - 1)) := by
  have hstrip : pyStrip ('b' :: 'y' :: 't' :: 'e' :: 's' :: '=' :: '-' :: ds) =
      'b' :: 'y' :: 't' :: 'e' :: 's' :: '=' :: '-' :: ds := by
    apply pyStrip_eq_self
    intro c hc
    simp only [List.mem_cons] at hc
    obtain rfl | rfl | rfl | rfl | rfl | rfl | rfl | hmem := hc
    · decide
    · decide
    · decide
    · decide
    · decide
    · decide
    · decide
    · exact isDigit_not_isWhitespace c (hdig c hmem)
  have hgroups : range_groups ('b' :: 'y' :: 't' :: 'e' :: 's' :: '=' :: '-' :: ds) =
      some ([], ds) := by
    unfold range_groups
    rw [hstrip, dropBytesTag_bytes]
    have htd : takeDigits ('-' :: ds) = ([], '-' :: ds) := by
      simp [takeDigits]
    dsimp only
    rw [htd]
    dsimp only
    rw [if_pos rfl, takeDigits_all ds hdig]
  unfold parse_range
  rw [hgroups]
  simp only [List.isEmpty_nil, if_true]
  have h2 : ds.isEmpty = false := by
    cases ds
    · exact absurd rfl hne
    · rfl
  rw [h2]
  simp only [Bool.false_eq_true, if_false]
  rw [if_neg]
  push_neg
  constructor
  · positivity
  · exact_mod_cast hS

/-! ## Helper lemmas: pipeline steps -/

lemma step_audio_cb (o : Oracles) (fs : FS) (h : o.cbRaises = true) :
    step_audio o fs = (fs, false, true) := by
  unfold step_audio
  cases hfa : fs.audio <;> simp [hfa, h]

lemma step_audio_not_raised (o : Oracles) (fs fs' : FS) (inv : Bool)
    (h : step_audio o fs = (fs', inv, false)) : fs' = { fs with audio := true } := by
  obtain ⟨i, a, sc, r, df, m, ot⟩ := fs
  unfold step_audio at h
  cases a <;> cases hcb : o.cbRaises <;> cases har : o.audioRes <;> simp_all

lemma step_script_not_raised (o : Oracles) (fs fs' : FS) (inv : Bool)
    (h : step_script o fs = (fs', inv, false)) : fs' = { fs with script := true } := by
  obtain ⟨i, a, sc, r, df, m, ot⟩ := fs
  unfold step_script at h
  cases sc <;> cases hcb : o.cbRaises <;> cases har : o.scriptRes <;> simp_all

lemma step_t2v_not_raised (o : Oracles) (fs fs' : FS) (inv : Bool)
    (h : step_t2v o fs = (fs', inv, false)) : fs' = { fs with resultant := true } := by
  obtain ⟨i, a, sc, r, df, m, ot⟩ := fs
  unfold step_t2v at h
  cases r <;> cases hcb : o.cbRaises <;> cases har : o.t2vRes <;> simp_all

lemma step_audio_states (o : Oracles) (fs : FS) :
    (step_audio o fs).1 = fs ∨ (step_audio o fs).1 = { fs with audio := true } := by
  obtain ⟨i, a, sc, r, df, m, ot⟩ := fs
  unfold step_audio
  cases a <;> cases hcb : o.cbRaises <;> cases har : o.audioRes <;> simp_all

lemma step_script_states (o : Oracles) (fs : FS) :
    (step_script o fs).1 = fs ∨ (step_script o fs).1 = { fs with script := true } := by
  obtain ⟨i, a, sc, r, df, m, ot⟩ := fs
  unfold step_script
  cases sc <;> cases hcb : o.cbRaises <;> cases har : o.scriptRes <;> simp_all

lemma step_t2v_states (o : Oracles) (fs : FS) :
    (step_t2v o fs).1 = fs ∨ (step_t2v o fs).1 = { fs with resultant := true } := by
  obtain ⟨i, a, sc, r, df, m, ot⟩ := fs
  unfold step_t2v
  cases r <;> cases hcb : o.cbRaises <;> cases har : o.t2vRes <;> simp_all

lemma step_audio_facts (o : Oracles) (fs : FS) :
    (fs.audio = true → (step_audio o fs).2.1 = false ∧ (step_audio o fs).1 = fs) ∧
    (step_audio o fs).1.script = fs.script ∧
    (step_audio o fs).1.resultant = fs.resultant ∧
    (step_audio o fs).1.manifest = fs.manifest ∧
    (step_audio o fs).1.input = fs.input := by
  obtain ⟨i, a, sc, r, df, m, ot⟩ := fs
  unfold step_audio
  cases a <;> cases hcb : o.cbRaises <;> cases har : o.audioRes <;> simp_all

lemma step_script_facts (o : Oracles) (fs : FS) :
    (fs.script = true → (step_script o fs).2.1 = false ∧ (step_script o fs).1 = fs) ∧
    (step_script o fs).1.audio = fs.audio ∧
    (step_script o fs).1.resultant = fs.resultant ∧
    (step_script o fs).1.manifest = fs.manifest ∧
    (step_script o fs).1.input = fs.input := by
  obtain ⟨i, a, sc, r, df, m, ot⟩ := fs
  unfold step_script
  cases sc <;> cases hcb : o.cbRaises <;> cases har : o.scriptRes <;> simp_all

lemma step_t2v_facts (o : Oracles) (fs : FS) :
    (fs.resultant = true → (step_t2v o fs).2.1 = false ∧ (step_t2v o fs).1 = fs) ∧
    (step_t2v o fs).1.audio = fs.audio ∧
    (step_t2v o fs).1.script = fs.script ∧
    (step_t2v o fs).1.manifest = fs.manifest ∧
    (step_t2v o fs).1.input = fs.input := by
  obtain ⟨i, a, sc, r, df, m, ot⟩ := fs
  unfold step_t2v
  cases r <;> cases hcb : o.cbRaises <;> cases har : o.t2vRes <;> simp_all

/-! ## Helper lemmas: the assembled store pipeline -/

lemma stages_cb (o : Oracles) (fs1 : FS) (h : o.cbRaises = true) :
    run_store_stages o fs1 = ⟨false, fs1, false, false, false⟩ := by
  unfold run_store_stages
  rw [step_audio_cb o fs1 h]

lemma goodDir_set_audio (fs : FS) (h : goodDir fs) : goodDir { fs with audio := true } := by
  intro hm
  obtain ⟨ha, hs, hr⟩ := h hm
  exact ⟨rfl, hs, hr⟩

lemma goodDir_set_script (fs : FS) (h : goodDir fs) : goodDir { fs with script := true } := by
  intro hm
  obtain ⟨ha, hs, hr⟩ := h hm
  exact ⟨ha, rfl, hr⟩

lemma goodDir_set_resultant (fs : FS) (h : goodDir fs) :
    goodDir { fs with resultant := true } := by
  intro hm
  obtain ⟨ha, hs, hr⟩ := h hm
  exact ⟨ha, hs, rfl⟩

/-- A store run that completes does so with all three stage outputs
present, and its final state is the written manifest over them. -/
lemma run_store_stages_ok_shape (o : Oracles) (fs1 : FS)
    (h : (run_store_stages o fs1).ok = true) :
    ∃ dp : Option Unit,
      compute_diff o.diffEnabled fs1.input true o.probeOrig o.probeRes o.encodeRes
        o.diffOutExists o.statsRes = .ok dp ∧
      (run_store_stages o fs1).fs =
        write_manifest
          { fs1 with
            audio := true, script := true, resultant := true,
            diffFile := fs1.diffFile || dp.isSome } dp := by
  unfold run_store_stages at h ⊢
  rcases hA : step_audio o fs1 with ⟨fsA, invA, rA⟩
  rw [hA] at h
  cases rA
  case true => simp at h
  case false =>
  have hfsA := step_audio_not_raised o fs1 fsA invA hA
  subst hfsA
  dsimp only at h ⊢
  rcases hS : step_script o { fs1 with audio := true } with ⟨fsS, invS, rS⟩
  rw [hS] at h
  cases rS
  case true => simp at h
  case false =>
  have hfsS := step_script_not_raised o _ fsS invS hS
  subst hfsS
  dsimp only at h ⊢
  rcases hT : step_t2v o { fs1 with audio := true, script := true } with ⟨fsT, invT, rT⟩
  rw [hT] at h
  cases rT
  case true => simp at h
  case false =>
  have hfsT := step_t2v_not_raised o _ fsT invT hT
  subst hfsT
  dsimp only at h ⊢
  rcases hd : compute_diff o.diffEnabled fs1.input true o.probeOrig o.probeRes o.encodeRes
      o.diffOutExists o.statsRes with e | dp
  · rw [hd] at h
    simp at h
  · exact ⟨dp, rfl, rfl⟩

/-- A stage whose output file already exists at the moment of its cache
check is not invoked. -/
lemma stages_cached_skip (o : Oracles) (fs1 : FS) :
    (fs1.audio = true → (run_store_stages o fs1).invAudio = false) ∧
    (fs1.script = true → (run_store_stages o fs1).invScript = false) ∧
    (fs1.resultant = true → (run_store_stages o fs1).invT2V = false) := by
  unfold run_store_stages
  rcases hA : step_audio o fs1 with ⟨fsA, invA, rA⟩
  have hAf := step_audio_facts o fs1
  rw [hA] at hAf
  cases rA
  case true =>
    dsimp only
    exact ⟨fun h => (hAf.1 h).1, fun _ => rfl, fun _ => rfl⟩
  case false =>
  dsimp only
  rcases hS : step_script o fsA with ⟨fsS, invS, rS⟩
  have hSf := step_script_facts o fsA
  rw [hS] at hSf
  cases rS
  case true =>
    dsimp only
    exact ⟨fun h => (hAf.1 h).1,
           fun h => (hSf.1 (hAf.2.1.trans h)).1,
           fun _ => rfl⟩
  case false =>
  dsimp only
  rcases hT : step_t2v o fsS with ⟨fsT, invT, rT⟩
  have hTf := step_t2v_facts o fsS
  rw [hT] at hTf
  cases rT
  case true =>
    dsimp only
    exact ⟨fun h => (hAf.1 h).1,
           fun h => (hSf.1 (hAf.2.1.trans h)).1,
           fun h => (hTf.1 (hSf.2.2.1.trans (hAf.2.2.1.trans h))).1⟩
  case false =>
  dsimp only
  rcases hd : compute_diff o.diffEnabled fsT.input fsT.resultant o.probeOrig o.probeRes
      o.encodeRes o.diffOutExists o.statsRes with e | dp
  · dsimp only
    exact ⟨fun h => (hAf.1 h).1,
           fun h => (hSf.1 (hAf.2.1.trans h)).1,
           fun h => (hTf.1 (hSf.2.2.1.trans (hAf.2.2.1.trans h))).1⟩
  · dsimp only
    exact ⟨fun h => (hAf.1 h).1,
           fun h => (hSf.1 (hAf.2.1.trans h)).1,
           fun h => (hTf.1 (hSf.2.2.1.trans (hAf.2.2.1.trans h))).1⟩

/-- Runs without `force_script` preserve the manifest invariant, whether
they complete or abort at any stage. -/
lemma stages_goodDir (o : Oracles) (fs1 : FS) (hg : goodDir fs1) :
    goodDir (run_store_stages o fs1).fs := by
  unfold run_store_stages
  rcases hA : step_audio o fs1 with ⟨fsA, invA, rA⟩
  have hgA : goodDir fsA := by
    have hAst := step_audio_states o fs1
    rw [hA] at hAst
    dsimp only at hAst
    rcases hAst with h | h
    · rw [h]; exact hg
    · rw [h]; exact goodDir_set_audio fs1 hg
  cases rA
  case true => dsimp only; exact hgA
  case false =>
  dsimp only
  rcases hS : step_script o fsA with ⟨fsS, invS, rS⟩
  have hgS : goodDir fsS := by
    have hSst := step_script_states o fsA
    rw [hS] at hSst
    dsimp only at hSst
    rcases hSst with h | h
    · rw [h]; exact hgA
    · rw [h]; exact goodDir_set_script fsA hgA
  cases rS
  case true => dsimp only; exact hgS
  case false =>
  dsimp only
  rcases hT : step_t2v o fsS with ⟨fsT, invT, rT⟩
  have hgT : goodDir fsT := by
    have hTst := step_t2v_states o fsS
    rw [hT] at hTst
    dsimp only at hTst
    rcases hTst with h | h
    · rw [h]; exact hgS
    · rw [h]; exact goodDir_set_resultant fsS hgS
  cases rT
  case true => dsimp only; exact hgT
  case false =>
  dsimp only
  have hfsA := step_audio_not_raised o fs1 fsA invA hA
  have hfsS := step_script_not_raised o fsA fsS invS hS
  have hfsT := step_t2v_not_raised o fsS fsT invT hT
  rcases hd : compute_diff o.diffEnabled fsT.input fsT.resultant o.probeOrig o.probeRes
      o.encodeRes o.diffOutExists o.statsRes with e | dp
  · dsimp only
    exact hgT
  · dsimp only
    intro _
    subst hfsT
    subst hfsS
    subst hfsA
    exact ⟨rfl, rfl, rfl⟩

/-! ## Claim theorems -/

/-- C1: for a stored item with resolvable artifacts and positive audio
duration `Ad`, reconstitution without diff builds exactly the
`_merge_ffmpeg` command of the claim: when `Vd ≤ 0` or `Vd ≥ Ad` the
resultant is muxed with output trimmed to `Ad`; when `0 < Vd < Ad` the
resultant is looped `⌊Ad / Vd⌋ + 1` times and trimmed to `Ad`, and the
looped stream is long enough (`Ad ≤ (⌊Ad / Vd⌋ + 1) · Vd`) that the trim
yields exactly `Ad`, so the output duration equals the audio duration. -/
theorem reconstitute_duration_law (d : StoredDir) (Ad Vd : ℚ)
    (ha : (find_artifacts d).1.isSome = true)
    (hr : (find_artifacts d).2.1.isSome = true) (hA : 0 < Ad) :
    ((Vd ≤ 0 ∨ Ad ≤ Vd) → reconstitute d false Ad Vd = .ok (.merge (.muxTrim Ad))) ∧
    (0 < Vd → Vd < Ad →
      reconstitute d false Ad Vd = .ok (.merge (.loopTrim (⌊Ad / Vd⌋ + 1) Ad)) ∧
      Ad ≤ ((⌊Ad / Vd⌋ + 1 : ℤ) : ℚ) * Vd) := by
  have hnone : ¬ ((find_artifacts d).1 = none ∨ (find_artifacts d).2.1 = none) := by
    push_neg
    exact ⟨Option.isSome_iff_ne_none.mp ha, Option.isSome_iff_ne_none.mp hr⟩
  unfold reconstitute
  rw [if_neg hnone, if_neg (not_le.mpr hA)]
  simp only [Bool.false_eq_true, false_and, if_false]
  constructor
  · intro hor
    unfold merge_ffmpeg
    rw [if_pos hor]
  · intro h1 h2
    have hcond : ¬ (Vd ≤ 0 ∨ Ad ≤ Vd) := by
      push_neg
      exact ⟨h1, h2⟩
    have hdivpos : 0 ≤ Ad / Vd := le_of_lt (div_pos hA h1)
    unfold merge_ffmpeg pyInt
    rw [if_neg hcond, if_neg (not_lt.mpr hdivpos)]
    refine ⟨rfl, ?_⟩
    have hfl := Int.lt_floor_add_one (Ad / Vd)
    rw [div_lt_iff₀ h1] at hfl
    push_cast
    exact le_of_lt hfl

/-- C1 witness: a concrete short resultant (4 s) against 10 s of audio
loops `⌊10/4⌋ + 1 = 3` times and is trimmed to 10 s. -/
theorem reconstitute_duration_law_witness :
    reconstitute dirPlain false 10 4 = .ok (.merge (.loopTrim 3 10)) := by
  have h := (reconstitute_duration_law dirPlain 10 4 (by decide) (by decide)
    (by norm_num)).2 (by norm_num) (by norm_num)
  have h3 : (⌊(10 : ℚ) / 4⌋ + 1 : ℤ) = 3 := by norm_num
  rw [h3] at h
  exact h.1

/-- C2 counterexample: the claim's closing invariant ("manifest.json is
never present unless the audio, script, and resultant-video files all
exist") fails on a reachable state: a successful run writes the
manifest, and a subsequent `force_script` retry deletes `script.txt` and
`resultant.mp4` but not the stale `manifest.json`; when that retry's
transcription stage then raises, the directory is left with a manifest
present and no script file. -/
theorem run_store_manifest_cex :
    (run_store false oAllOk fsEmpty).ok = true ∧
    (run_store true oScriptErr (run_store false oAllOk fsEmpty).fs).fs.manifest.isSome = true ∧
    (run_store true oScriptErr (run_store false oAllOk fsEmpty).fs).fs.script = false := by
  decide

/-- C2 (amended): after every successful store run the manifest exists,
the audio, script and resultant files it records all exist, the
`resultant_video` field is non-null, and `diff_video` is null exactly
when diff computation was disabled or did not succeed; and every run
without `force_script` (which deletes nothing) preserves the invariant
that a present manifest implies all three stage outputs exist.  A failed
`force_script` retry can leave a stale manifest beside deleted files, so
the unrestricted "never present unless" invariant does not hold. -/
theorem run_store_manifest_law (force : Bool) (o : Oracles) (fs0 : FS) :
    ((run_store force o fs0).ok = true →
      ∃ m : ManifestData,
        (run_store force o fs0).fs.manifest = some m ∧
        (run_store force o fs0).fs.audio = true ∧
        (run_store force o fs0).fs.script = true ∧
        (run_store force o fs0).fs.resultant = true ∧
        m.resultantRecorded = true ∧
        (m.diffRecorded = true ↔
          compute_diff o.diffEnabled fs0.input true o.probeOrig o.probeRes o.encodeRes
            o.diffOutExists o.statsRes = .ok (some ()))) ∧
    (goodDir fs0 → goodDir (run_store false o fs0).fs) := by
  constructor
  · intro h
    unfold run_store at h ⊢
    obtain ⟨dp, hd, hfs⟩ := run_store_stages_ok_shape o (if force then force_step fs0 else fs0) h
    rw [hfs]
    have hinput : (if force then force_step fs0 else fs0).input = fs0.input := by
      cases force <;> rfl
    rw [hinput] at hd
    rw [hd]
    unfold write_manifest
    dsimp only
    refine ⟨_, rfl, rfl, rfl, rfl, rfl, ?_⟩
    rcases dp with _ | ⟨⟩ <;> simp
  · exact fun hg => stages_goodDir o fs0 hg

/-- C2 witness: a concrete successful run on a fresh directory. -/
theorem run_store_manifest_law_witness :
    ∃ m : ManifestData,
      (run_store false oAllOk fsEmpty).fs.manifest = some m ∧
      (run_store false oAllOk fsEmpty).fs.audio = true ∧
      (run_store false oAllOk fsEmpty).fs.script = true ∧
      (run_store false oAllOk fsEmpty).fs.resultant = true ∧
      m.resultantRecorded = true ∧
      (m.diffRecorded = true ↔
        compute_diff oAllOk.diffEnabled fsEmpty.input true oAllOk.probeOrig oAllOk.probeRes
          oAllOk.encodeRes oAllOk.diffOutExists oAllOk.statsRes = .ok (some ())) :=
  (run_store_manifest_law false oAllOk fsEmpty).1 (by decide)

/-- C3: before each of the audio-extraction, transcription and
video-generation stages, `run_store` checks for that stage's output file
(`audio.*`, `script.txt`, `resultant.mp4`) and skips the stage's work
when it exists; consequently a second force-free run after a successful
run invokes none of the three stages. -/
theorem run_store_idempotent_skip :
    (∀ (force : Bool) (o : Oracles) (fs0 : FS),
      ((if force then force_step fs0 else fs0).audio = true →
        (run_store force o fs0).invAudio = false) ∧
      ((if force then force_step fs0 else fs0).script = true →
        (run_store force o fs0).invScript = false) ∧
      ((if force then force_step fs0 else fs0).resultant = true →
        (run_store force o fs0).invT2V = false)) ∧
    (∀ (o1 o2 : Oracles) (fs0 : FS), (run_store false o1 fs0).ok = true →
      (run_store false o2 (run_store false o1 fs0).fs).invAudio = false ∧
      (run_store false o2 (run_store false o1 fs0).fs).invScript = false ∧
      (run_store false o2 (run_store false o1 fs0).fs).invT2V = false) := by
  constructor
  · intro force o fs0
    exact stages_cached_skip o (if force then force_step fs0 else fs0)
  · intro o1 o2 fs0 h
    obtain ⟨dp, hd, hfs⟩ := run_store_stages_ok_shape o1 fs0 h
    have hfs' : (run_store false o1 fs0).fs =
        write_manifest
          { fs0 with
            audio := true, script := true, resultant := true,
            diffFile := fs0.diffFile || dp.isSome } dp := hfs
    have ha : (run_store false o1 fs0).fs.audio = true := by rw [hfs']; rfl
    have hs : (run_store false o1 fs0).fs.script = true := by rw [hfs']; rfl
    have hr : (run_store false o1 fs0).fs.resultant = true := by rw [hfs']; rfl
    have hsk := stages_cached_skip o2 (run_store false o1 fs0).fs
    exact ⟨hsk.1 ha, hsk.2.1 hs, hsk.2.2 hr⟩

/-- C3 witness: a second run over the state left by a concrete
successful run invokes no stage. -/
theorem run_store_idempotent_skip_witness :
    (run_store false oAllOk (run_store false oAllOk fsEmpty).fs).invAudio = false ∧
    (run_store false oAllOk (run_store false oAllOk fsEmpty).fs).invScript = false ∧
    (run_store false oAllOk (run_store false oAllOk fsEmpty).fs).invT2V = false :=
  run_store_idempotent_skip.2 oAllOk oAllOk fsEmpty (by decide)

/-- C4: a `force_script` store run is exactly the stage pipeline run on
the directory after the force deletions, and the force step deletes
exactly `script.txt` and `resultant.mp4`: the input video, the `audio.*`
file, `diff.ogv`, the manifest and every other file in the directory are
left unchanged by it. -/
theorem run_store_force_frame (o : Oracles) (fs : FS) :
    run_store true o fs = run_store_stages o (force_step fs) ∧
    (force_step fs).script = false ∧
    (force_step fs).resultant = false ∧
    (force_step fs).audio = fs.audio ∧
    (force_step fs).input = fs.input ∧
    (force_step fs).diffFile = fs.diffFile ∧
    (force_step fs).manifest = fs.manifest ∧
    (force_step fs).others = fs.others :=
  ⟨rfl, rfl, rfl, rfl, rfl, rfl, rfl, rfl⟩

/-- C5 counterexample: the bitrate the code computes is not the claim's
`clamp(maxMegabytes·1e6·8 / D / 1000, 32, 320)`: at `max_mb = 1`,
`D = 30` the raw ratio is `800/3 ≈ 266.67` kbps, but
`int(target_bits / duration / 1000)` truncates to 266 before clamping,
so the bitrate is 266, not `800/3`. -/
theorem bitrate_formula_cex :
    bitrate_k 1 30 = 266 ∧
    ¬ ((bitrate_k 1 30 : ℚ) = max 32 (min 320 ((1 : ℚ) * 1000000 * 8 / 30 / 1000))) := by
  constructor
  · norm_num [bitrate_k, pyInt]
  · norm_num [bitrate_k, pyInt]

/-- C5 (amended): for `max_mb > 0` and probed duration `D > 0` the
bitrate equals `clamp(⌊max_mb·1e6·8 / D / 1000⌋, 32, 320)` — the raw
ratio is truncated to an integer before clamping — hence it lies in
`[32, 320]`; for a non-positive (unknown) duration it is exactly 128. -/
theorem bitrate_clamped_law (max_mb D : ℚ) (h1 : 0 < max_mb) (h2 : 0 < D) :
    bitrate_k max_mb D = max 32 (min 320 ⌊max_mb * 1000000 * 8 / D / 1000⌋) ∧
    32 ≤ bitrate_k max_mb D ∧ bitrate_k max_mb D ≤ 320 ∧
    ∀ Dbad : ℚ, Dbad ≤ 0 → bitrate_k max_mb Dbad = 128 := by
  have hq : 0 ≤ max_mb * 1000000 * 8 / D / 1000 := by positivity
  unfold bitrate_k
  rw [if_pos h2]
  unfold pyInt
  rw [if_neg (not_lt.mpr hq)]
  refine ⟨rfl, le_max_left _ _, max_le (by norm_num) (min_le_left _ _), ?_⟩
  intro Dbad hD
  rw [if_neg (not_lt.mpr hD)]

/-- C5 witness: the law at `max_mb = 1`, `D = 30`. -/
theorem bitrate_clamped_law_witness :
    bitrate_k 1 30 = max 32 (min 320 ⌊(1 : ℚ) * 1000000 * 8 / 30 / 1000⌋) ∧
    32 ≤ bitrate_k 1 30 ∧ bitrate_k 1 30 ≤ 320 ∧
    ∀ Dbad : ℚ, Dbad ≤ 0 → bitrate_k 1 Dbad = 128 :=
  bitrate_clamped_law 1 30 (by norm_num) (by norm_num)

/-- C6: the claim (and `compute_diff`'s own docstring, "does not raise")
is right and the code is wrong: the `except` tuple at diff.py:125 lacks
`subprocess.TimeoutExpired`, so an encode that exceeds its 600-second
timeout propagates out of `compute_diff`, aborts `run_store` after all
three stages, and prevents the manifest write (the item never becomes
ready). -/
theorem compute_diff_timeout_bug :
    compute_diff true true true (.found 640 480 24 10) (.found 1280 720 24 5) .timeout true
      .completed = .error .timeoutExpired ∧
    (run_store false oDiffTimeout fsStaged).ok = false ∧
    (run_store false oDiffTimeout fsStaged).fs.manifest = none :=
  ⟨by decide, by decide, by decide⟩

/-- C7: on a 1000-byte file, `Range: bytes=100-199` yields status 206,
`Content-Length: 100`, `Content-Range: bytes 100-199/1000` and
`Accept-Ranges: bytes`; no Range header yields 200 with the full length;
and in general every parsed range is clipped to the file size. -/
theorem range_request_law :
    stream 1000 (some (String.toList "bytes=100-199")) =
      ⟨206, 100, some (100, 199, 1000), true⟩ ∧
    stream 1000 none = ⟨200, 1000, none, true⟩ ∧
    ∀ (hdr : List Char) (total : ℕ) (s e : ℤ),
      parse_range hdr total = some (s, e) →
      0 ≤ s ∧ s ≤ e ∧ e ≤ (total : ℤ) - 1 ∧ s < (total : ℤ) :=
  ⟨by decide, by decide, parse_range_clip⟩

/-- C7 witness: the clipping part of the law at the concrete header of
the claim. -/
theorem range_request_law_witness :
    0 ≤ (100 : ℤ) ∧ (100 : ℤ) ≤ 199 ∧ (199 : ℤ) ≤ (1000 : ℤ) - 1 ∧ (100 : ℤ) < (1000 : ℤ) :=
  range_request_law.2.2 (String.toList "bytes=100-199") 1000 100 199 (by decide)

/-- C8: whenever `find_artifacts` cannot resolve the audio or the
resultant video (in particular for a directory with no manifest and no
`resultant.mp4`), `reconstitute` fails with the distinguishable
missing-artifacts error (`FileNotFoundError`) before any merge action is
produced, so no output file — partial or otherwise — is created. -/
theorem reconstitute_missing_artifacts (d : StoredDir) (u : Bool) (Ad Vd : ℚ) :
    (((find_artifacts d).1 = none ∨ (find_artifacts d).2.1 = none) →
      reconstitute d u Ad Vd = .error .artifactsMissing) ∧
    (d.manifest = none → d.resultantFile = false →
      reconstitute d u Ad Vd = .error .artifactsMissing) := by
  constructor
  · intro h
    unfold reconstitute
    rw [if_pos h]
  · intro hm hrf
    have h2 : (find_artifacts d).2.1 = none := by
      unfold find_artifacts
      rw [hm]
      unfold find_by_name
      simp [hrf]
    unfold reconstitute
    rw [if_pos (Or.inr h2)]

/-- C8 witness: a directory lacking `resultant.mp4` fails with the
missing-artifacts error. -/
theorem reconstitute_missing_artifacts_witness :
    reconstitute dirNoResultant true 5 3 = .error .artifactsMissing :=
  (reconstitute_missing_artifacts dirNoResultant true 5 3).2 rfl rfl

/-- C9 counterexample: a progress callback that raises aborts the store
pipeline at its very first (unwrapped) invocation in `run_store`: on a
fresh directory the run fails, no stage is invoked, and the directory is
left untouched — so callback exceptions do abort the pipeline. -/
theorem run_store_callback_cex :
    (run_store false oCbRaise fsEmpty).ok = false ∧
    (run_store false oCbRaise fsEmpty).fs = fsEmpty ∧
    (run_store false oCbRaise fsEmpty).invAudio = false ∧
    (run_store false oCbRaise fsEmpty).invScript = false ∧
    (run_store false oCbRaise fsEmpty).invT2V = false := by
  decide

/-- C9 (amended): only the callback invocations routed through
`script_to_video._report` are wrapped; `run_store` itself calls the
callback directly, so a callback that raises aborts every store run at
the first progress report — before any stage work and before the
manifest write — leaving the manifest as it was. -/
theorem run_store_callback_aborts (force : Bool) (o : Oracles) (fs0 : FS)
    (h : o.cbRaises = true) :
    (run_store force o fs0).ok = false ∧
    (run_store force o fs0).fs.manifest = fs0.manifest ∧
    (run_store force o fs0).invAudio = false ∧
    (run_store force o fs0).invScript = false ∧
    (run_store force o fs0).invT2V = false := by
  unfold run_store
  rw [stages_cb o _ h]
  refine ⟨rfl, ?_, rfl, rfl, rfl⟩
  cases force <;> rfl

/-- C9 witness: the abort law at a concrete raising callback. -/
theorem run_store_callback_aborts_witness :
    (run_store false oCbRaise fsStaged).ok = false ∧
    (run_store false oCbRaise fsStaged).fs.manifest = fsStaged.manifest ∧
    (run_store false oCbRaise fsStaged).invAudio = false ∧
    (run_store false oCbRaise fsStaged).invScript = false ∧
    (run_store false oCbRaise fsStaged).invT2V = false :=
  run_store_callback_aborts false oCbRaise fsStaged (by decide)

/-- C10: a suffix-form header `bytes=-N` (empty first bound) on a file
of size `S > 0` is served from the beginning of the file: status 206,
bytes 0 through `min N (S-1)` — the first bound defaults to 0 rather
than selecting the last `N` bytes as standard HTTP suffix ranges do. -/
theorem suffix_range_serves_head (ds : List Char) (S : ℕ) (hS : 0 < S) (hne : ds ≠ [])
    (hdig : ∀ c ∈ ds, c.isDigit = true) :
    stream S (some ('b' :: 'y' :: 't' :: 'e' :: 's' :: '=' :: '-' :: ds)) =
      ⟨206, min (digitsToNat ds : ℤ) ((S : ℤ) - 1) + 1,
        some (0, min (digitsToNat ds : ℤ) ((S : ℤ) - 1), S), true⟩ := by
  unfold stream
  dsimp only
  rw [List.isEmpty_cons]
  simp only [Bool.false_eq_true, if_false]
  rw [suffix_header_parse ds S hS hne hdig]
  dsimp only
  norm_num

/-- C10 witness: `bytes=-500` on a 1000-byte file serves bytes 0-500. -/
theorem suffix_range_serves_head_witness :
    stream 1000 (some ('b' :: 'y' :: 't' :: 'e' :: 's' :: '=' :: '-' :: ['5', '0', '0'])) =
      ⟨206, min ((digitsToNat ['5', '0', '0'] : ℤ)) ((1000 : ℤ) - 1) + 1,
        some (0, min ((digitsToNat ['5', '0', '0'] : ℤ)) ((1000 : ℤ) - 1), 1000), true⟩ :=
  suffix_range_serves_head ['5', '0', '0'] 1000 (by decide) (by decide) (by decide)

end VideoStorageTool
